import Mathlib

/-!
Verification of the markdown-to-JSON conversion pipeline in
`.github/scripts/generate_json.py`.

Python strings are embedded as `List Char`; the regex scans of the script
(`re.finditer`, `re.sub`, `re.search`) are embedded as explicit left-to-right
scanners with the same backtracking semantics; fallible operations return
`Option`.  Recursions whose argument shrinks by more than one element per step
use an explicit fuel initialised to the length of the input, which is always
sufficient because every step consumes at least one character.
-/

set_option autoImplicit false

/-- Python `needle in hay` (substring containment, case sensitive). -/
def strContains (needle : List Char) : List Char → Bool
  | [] => needle.isPrefixOf []
  | c :: rest => needle.isPrefixOf (c :: rest) || strContains needle rest

/-- Python `s.lower()` over the characters of `s`. -/
def pyLower (s : List Char) : List Char := s.map Char.toLower

/-- Worker for `pyReplace`; the fuel is initialised to the length of the
string, which suffices for a non-empty `old` pattern. -/
def pyReplaceGo (old new : List Char) : Nat → List Char → List Char
  | 0, s => s
  | _, [] => []
  | fuel + 1, c :: rest =>
    if old.isPrefixOf (c :: rest) then
      new ++ pyReplaceGo old new fuel ((c :: rest).drop old.length)
    else
      c :: pyReplaceGo old new fuel rest

/-- Python `s.replace(old, new)`: replaces every non-overlapping occurrence of
`old`, scanning left to right (used by the script with `old = ".md"` and
`old = ".json"`). -/
def pyReplace (old new s : List Char) : List Char := pyReplaceGo old new s.length s

/-- `os.path.basename` on POSIX paths: the part of the path after the last
slash (equal to Python's `path.split("/")[-1]`). -/
def basename (s : List Char) : List Char :=
  (s.reverse.takeWhile (fun c => c ≠ '/')).reverse

/-- Python `s.capitalize()`: first character upper-cased, the rest
lower-cased. -/
def pyCapitalize : List Char → List Char
  | [] => []
  | c :: rest => c.toUpper :: rest.map Char.toLower

/-- `infer_guide_type` from the script: case-insensitive substring checks in a
fixed order, first match wins. -/
def infer_guide_type (path : List Char) : List Char :=
  let p := pyLower path
  if strContains "python".toList p then "language".toList
  else if strContains "make".toList p then "pattern".toList
  else if strContains "postgresql".toList p || strContains "sql".toList p then "platform".toList
  else if strContains "shell".toList p then "language".toList
  else "other".toList

/-!
The link scan of `extract_references` embeds Python's
`re.finditer(r'\[(.*?)\]\((.*?)\)', content)`: a match starting at `[` takes
the shortest newline-free name followed by a literal close-bracket and open
parenthesis, then the shortest newline-free path followed by a close
parenthesis; on failure of the inner scan the name is extended (regex
backtracking); `finditer` resumes after the end of each match and otherwise
advances one character.
-/

/-- Scan for the first close parenthesis on the current line: returns the
characters before it and the remainder after it (the `(.*?)\)` part of the
link regex). -/
def scanPath : List Char → Option (List Char × List Char)
  | [] => none
  | c :: rest =>
    if c = ')' then some ([], rest)
    else if c = '\n' then none
    else
      match scanPath rest with
      | some pr => some (c :: pr.1, pr.2)
      | none => none

/-- Scan for `](` followed by a successful path scan, extending the name on
failure (the `(.*?)\]\(` part of the link regex with backtracking): returns
name, path and the remainder after the match. -/
def scanName : List Char → Option (List Char × List Char × List Char)
  | [] => none
  | c :: rest =>
    if c = '\n' then none
    else if c = ']' ∧ rest.head? = some '(' then
      match scanPath rest.tail with
      | some pr => some ([], pr.1, pr.2)
      | none =>
        match scanName rest with
        | some npr => some (c :: npr.1, npr.2.1, npr.2.2)
        | none => none
    else
      match scanName rest with
      | some npr => some (c :: npr.1, npr.2.1, npr.2.2)
      | none => none

/-- Worker for `findLinks`: attempts a match at every position, resuming after
the end of a successful match; the fuel is initialised to the length of the
input, which suffices because every step consumes at least one character. -/
def findLinksGo : Nat → List Char → List (List Char × List Char)
  | 0, _ => []
  | _, [] => []
  | fuel + 1, c :: rest =>
    if c = '[' then
      match scanName rest with
      | some npr => (npr.1, npr.2.1) :: findLinksGo fuel npr.2.2
      | none => findLinksGo fuel rest
    else
      findLinksGo fuel rest

/-- All matches of the markdown-link regex in source order, as
(name, path) pairs. -/
def findLinks (s : List Char) : List (List Char × List Char) := findLinksGo s.length s

/-- A reference record produced by `extract_references`. -/
structure Reference where
  name : List Char
  path : List Char
  type : List Char
  apiUrl : List Char
deriving DecidableEq

/-- The default `base_url` parameter of `extract_references` (the only value
the script ever passes). -/
def base_url : List Char := "api/guides".toList

/-- The qualifying condition of `extract_references`:
`'guides' in path and path.endswith('.md')`. -/
def isGuideLink (path : List Char) : Bool :=
  strContains "guides".toList path && ".md".toList.isSuffixOf path

/-- The reference record built by `extract_references` for one qualifying
link: `api_url = f"{base_url}/{guide_type}s/{filename}"` with
`filename = os.path.basename(path).replace('.md', '.json')`. -/
def mkReference (name path : List Char) : Reference :=
  { name := name
    path := path
    type := infer_guide_type path
    apiUrl := base_url ++ ('/' :: infer_guide_type path) ++
      ('s' :: '/' :: pyReplace ".md".toList ".json".toList (basename path)) }

/-- `extract_references` from the script: iterate all regex matches, keep the
qualifying ones, appending a record for each. -/
def extract_references (content : List Char) : List Reference :=
  (findLinks content).foldl
    (fun references m =>
      if isGuideLink m.2 then references ++ [mkReference m.1 m.2] else references)
    []

/-!  Comment stripping: `re.sub(r'<!--.*?-->', '', content, flags=re.DOTALL)`. -/

/-- The characters opening an HTML comment. -/
def openTag : List Char := "<!--".toList

/-- The characters closing an HTML comment. -/
def closeTag : List Char := "-->".toList

/-- Drop through the first occurrence of `-->`, returning the remainder after
it (the lazy `.*?-->` part with DOTALL), or `none` when no close exists. -/
def dropToClose : List Char → Option (List Char)
  | [] => none
  | c :: rest =>
    if closeTag.isPrefixOf (c :: rest) then some ((c :: rest).drop 3)
    else dropToClose rest

/-- Worker for `stripComments`; fuel initialised to the length of the input,
sufficient because every step consumes at least one character. -/
def stripGo : Nat → List Char → List Char
  | 0, s => s
  | _, [] => []
  | fuel + 1, c :: rest =>
    if openTag.isPrefixOf (c :: rest) then
      match dropToClose ((c :: rest).drop 4) with
      | some r => stripGo fuel r
      | none => c :: stripGo fuel rest
    else
      c :: stripGo fuel rest

/-- HTML-comment removal applied by the script to the root document and to
every guide document before any other processing. -/
def stripComments (s : List Char) : List Char := stripGo s.length s

/-- The start-of-guide marker searched for with `content.find(...)`. -/
def marker : List Char := "## The Golden Rules".toList

/-- Python `content[content.find(m):]` when the marker is present, `none` when
`find` returns `-1`: the suffix of `s` starting at the first occurrence of
`m`. -/
def findFrom (m : List Char) : List Char → Option (List Char)
  | [] => if m.isPrefixOf ([] : List Char) then some [] else none
  | c :: rest =>
    if m.isPrefixOf (c :: rest) then some (c :: rest) else findFrom m rest

/-!  JSON values, as produced by `json.loads` on the manifest template.
Objects are association lists in insertion order (Python dicts preserve it). -/

/-- A JSON value. -/
inductive JVal where
  | str : List Char → JVal
  | num : Int → JVal
  | bool : Bool → JVal
  | null : JVal
  | arr : List JVal → JVal
  | obj : List (List Char × JVal) → JVal

/-- Python `d.get(k)` on a dict: the value of the first (only) entry with key
`k`, or `None`. -/
def jLookup (fields : List (List Char × JVal)) (k : List Char) : Option JVal :=
  match fields.find? (fun kv => kv.1 == k) with
  | some kv => some kv.2
  | none => none

/-- Python `d[k] = v` on a dict: replace the value of an existing key in
place, else append the new entry at the end. -/
def jSetKey : List (List Char × JVal) → List Char → JVal → List (List Char × JVal)
  | [], k, v => [(k, v)]
  | kv :: rest, k, v =>
    if kv.1 == k then (kv.1, v) :: rest else kv :: jSetKey rest k v

/-- Python `v == "..."` for a JSON value against a string: equal strings are
`True`, every other value compares `False`. -/
def jIsStr (v : JVal) (s : List Char) : Bool :=
  match v with
  | JVal.str t => t == s
  | _ => false

/-- The comprehension
`[e for e in endpoints if e.get("name") == "main_guide"]`: keeps the endpoints
named `main_guide` untouched; a non-dict element raises (AttributeError),
modelled as `none`. -/
def keepMainGuide : List JVal → Option (List JVal)
  | [] => some []
  | e :: rest =>
    match e with
    | JVal.obj fields =>
      let keep := match jLookup fields "name".toList with
        | some v => jIsStr v "main_guide".toList
        | none => false
      match keepMainGuide rest with
      | some l => some (if keep then e :: l else l)
      | none => none
    | _ => none

/-- A `generated_guides` record: name, type and relative output path of one
emitted guide. -/
structure Guide where
  name : List Char
  type : List Char
  path : List Char
deriving DecidableEq

/-- One step of building `guides_by_type`: append the guide to the list of its
type if the type is already a key, else append a new key at the end (Python
dict insertion-order semantics). -/
def groupAdd : List (List Char × List Guide) → Guide → List (List Char × List Guide)
  | [], g => [(g.type, [g])]
  | kv :: rest, g =>
    if kv.1 == g.type then (kv.1, kv.2 ++ [g]) :: rest else kv :: groupAdd rest g

/-- `guides_by_type` from `generate_mcp_manifest`: guides grouped by type, in
insertion order. -/
def guidesByType (generated : List Guide) : List (List Char × List Guide) :=
  generated.foldl groupAdd []

/-- The endpoint object appended for one generated guide:
name = `guide["path"].split("/")[-1].replace(".json", "")`,
description = `f"{type_label} guide for {guide['name']}"` with
`type_label = guide_type.capitalize()`, path = `f"/{guide['path']}"`. -/
def mkEndpoint (g : Guide) : JVal :=
  JVal.obj
    [ ("name".toList, JVal.str (pyReplace ".json".toList [] (basename g.path))),
      ("description".toList,
        JVal.str (pyCapitalize g.type ++ " guide for ".toList ++ g.name)),
      ("path".toList, JVal.str ('/' :: g.path)) ]

/-- The endpoints appended by the nested loops over `guides_by_type.items()`. -/
def appendedEndpoints (generated : List Guide) : List JVal :=
  ((guidesByType generated).map (fun kv => kv.2.map mkEndpoint)).flatten

/-- `generate_mcp_manifest` from the script.  Every failure inside its `try`
block — unreadable or unparsable template (`template = none`), a template
value on which the comprehension raises, or a failed write
(`writeOk = false`) — is caught and logged, modelled as `none`; on success the
result is the manifest object written to `manifest.json`. -/
def generate_mcp_manifest (template : Option JVal) (writeOk : Bool)
    (generated : List Guide) : Option JVal :=
  match template with
  | none => none
  | some (JVal.obj fields) =>
    let eps := match jLookup fields "endpoints".toList with
      | some v => v
      | none => JVal.arr []
    match eps with
    | JVal.arr l =>
      match keepMainGuide l with
      | none => none
      | some kept =>
        if writeOk then
          some (JVal.obj (jSetKey fields "endpoints".toList
            (JVal.arr (kept ++ appendedEndpoints generated))))
        else none
    | _ => none
  | some _ => none

/-- The `name` fields of the `endpoints` array of a written manifest (a
non-object endpoint or a missing name reads as the empty string). -/
def manifestEndpointNames (m : Option JVal) : Option (List (List Char)) :=
  match m with
  | some (JVal.obj fields) =>
    match jLookup fields "endpoints".toList with
    | some (JVal.arr l) =>
      some (l.map (fun e =>
        match e with
        | JVal.obj fs =>
          match jLookup fs "name".toList with
          | some (JVal.str s) => s
          | _ => []
        | _ => []))
    | _ => none
  | _ => none

/-- Top-level lookup in an optional manifest object. -/
def jLookupOpt : Option JVal → List Char → Option JVal
  | some (JVal.obj fields), k => jLookup fields k
  | _, _ => none

/-!  The per-guide processing and the whole `create_guide_json` run. -/

/-- The title and comment-stripped content of one guide document. -/
structure GuideData where
  title : List Char
  content : List Char
deriving DecidableEq

/-- Split on newline characters (the lines at which `re.MULTILINE` anchors
`^`). -/
def splitOnNl : List Char → List (List Char)
  | [] => [[]]
  | c :: rest =>
    match splitOnNl rest with
    | [] => [[]]
    | l :: ls => if c = '\n' then [] :: l :: ls else (c :: l) :: ls

/-- `re.search(r'^# (.*?)$', content, re.MULTILINE)`: the text after `# ` on
the first line starting with `# `. -/
def findTitle (content : List Char) : Option (List Char) :=
  match (splitOnNl content).find? (fun l => "# ".toList.isPrefixOf l) with
  | some l => some (l.drop 2)
  | none => none

/-- `process_guide_markdown` from the script: `none` when the file could not
be read (the guide is skipped with a warning); otherwise the comment-stripped
content together with the extracted title, falling back to
`os.path.basename(file_path).replace('.md', '')`. -/
def process_guide_markdown (filename : List Char) (source : Option (List Char)) :
    Option GuideData :=
  match source with
  | none => none
  | some raw =>
    let content := stripComments raw
    let title := match findTitle content with
      | some t => t
      | none => pyReplace ".md".toList [] (basename filename)
    some { title := title, content := content }

/-- One per-guide JSON file written by the loop of `create_guide_json`:
its relative output path, and the `metadata.name`, `metadata.type` and
`content` fields of the written JSON. -/
structure PerGuideOut where
  relPath : List Char
  name : List Char
  type : List Char
  content : List Char
deriving DecidableEq

/-- The per-guide loop of `create_guide_json`.  `wr` tells whether writing a
given path succeeds; a failed write raises, aborting the loop (second
component `true`).  The guide type is inferred from the full file path
`os.path.join(guides_dir, filename)`; the output path is
`api/guides/{guide_type}s/{filename.replace('.md', '.json')}`. -/
def processGuides (wr : List Char → Bool) (guidesDir : List Char) :
    List (List Char × Option (List Char)) → List PerGuideOut × Bool
  | [] => ([], false)
  | (filename, source) :: rest =>
    match process_guide_markdown filename source with
    | none => processGuides wr guidesDir rest
    | some gd =>
      let guide_type := infer_guide_type (guidesDir ++ ('/' :: filename))
      let output_filename := pyReplace ".md".toList ".json".toList filename
      let rel := "api/guides/".toList ++ guide_type ++ ('s' :: '/' :: output_filename)
      if wr rel then
        let outs := processGuides wr guidesDir rest
        ({ relPath := rel, name := gd.title, type := guide_type,
           content := gd.content } :: outs.1, outs.2)
      else ([], true)

/-- The subdirectories of `api/guides` pre-created by `create_guide_json`
(source line 104: `guide_types = ["languages", "patterns", "platforms",
"other"]`). -/
def guide_types : List (List Char) :=
  ["languages".toList, "patterns".toList, "platforms".toList, "other".toList]

/-- The observable outcome of one `create_guide_json` run: the process exit
code, the per-guide JSON files written, the `content` and `references` fields
of `api/guide.json` when it was written, whether `index.html` was written, and
the manifest written by `generate_mcp_manifest` when that step succeeded. -/
structure RunResult where
  exitCode : Nat
  perGuideFiles : List PerGuideOut
  guideJson : Option (List Char × List Reference)
  indexHtml : Bool
  manifest : Option JVal

/-- `create_guide_json` from the script.  `readme = none` models an unreadable
root document (`sys.exit(1)`); a missing marker is `sys.exit(1)`; a raised
write error outside the manifest step aborts the run with the interpreter's
exit code 1, keeping the files already written; the manifest step never
affects the exit code. -/
def create_guide_json (readme : Option (List Char)) (guidesDir : List Char)
    (guideFiles : List (List Char × Option (List Char)))
    (template : Option JVal) (wr : List Char → Bool) : RunResult :=
  match readme with
  | none =>
    { exitCode := 1, perGuideFiles := [], guideJson := none,
      indexHtml := false, manifest := none }
  | some raw =>
    let content := stripComments raw
    match findFrom marker content with
    | none =>
      { exitCode := 1, perGuideFiles := [], guideJson := none,
        indexHtml := false, manifest := none }
    | some guide_content =>
      let references := extract_references guide_content
      let outs := processGuides wr guidesDir guideFiles
      if outs.2 then
        { exitCode := 1, perGuideFiles := outs.1, guideJson := none,
          indexHtml := false, manifest := none }
      else if ! wr "api/guide.json".toList then
        { exitCode := 1, perGuideFiles := outs.1, guideJson := none,
          indexHtml := false, manifest := none }
      else if ! wr "index.html".toList then
        { exitCode := 1, perGuideFiles := outs.1,
          guideJson := some (guide_content, references),
          indexHtml := false, manifest := none }
      else
        let generated := outs.1.map (fun o =>
          { name := o.name, type := o.type, path := o.relPath : Guide })
        { exitCode := 0, perGuideFiles := outs.1,
          guideJson := some (guide_content, references),
          indexHtml := true,
          manifest := generate_mcp_manifest template
            (wr "manifest.json".toList) generated }

/-!  Definitions modelled from the spec's words, for refinement claims. -/

/-- Modelled from the spec: the classification of `inferType` presented as an
ordered list of (predicate, result) pairs over the lower-cased path. -/
def specTypeRules : List ((List Char → Bool) × List Char) :=
  [ (fun p => strContains "python".toList p, "language".toList),
    (fun p => strContains "make".toList p, "pattern".toList),
    (fun p => strContains "postgresql".toList p || strContains "sql".toList p,
      "platform".toList),
    (fun p => strContains "shell".toList p, "language".toList) ]

/-- Modelled from the spec: evaluate an ordered rule list, first match wins,
with a default result. -/
def firstMatch (rules : List ((List Char → Bool) × List Char))
    (dflt : List Char) (p : List Char) : List Char :=
  match rules with
  | [] => dflt
  | rule :: rest => if rule.1 p then rule.2 else firstMatch rest dflt p

/-- The keys of a list in order of first occurrence. -/
def firstOcc {α : Type} [BEq α] : List α → List α
  | [] => []
  | a :: rest => a :: (firstOcc rest).filter (fun b => !(b == a))

/-- Specification-side description of `guides_by_type`: the guide types in
order of first appearance, each paired with the guides of that type in
processing order. -/
def groupOf (p : List Guide) : List (List Char × List Guide) :=
  (firstOcc (p.map Guide.type)).map (fun t => (t, p.filter (fun g => g.type == t)))

/-!  Theorems. -/

/-- A fold that conditionally appends is a filter-then-map. -/
theorem foldl_append_if {α β : Type} (p : α → Bool) (f : α → β) :
    ∀ (l : List α) (acc : List β),
      l.foldl (fun r m => if p m then r ++ [f m] else r) acc =
        acc ++ (l.filter p).map f := by
  intro l
  induction l with
  | nil => intro acc; simp
  | cons a l ih =>
    intro acc
    by_cases h : p a = true <;>
      simp [List.filter_cons, h, ih]

/-- Claim C1: on any comment-stripped content, `extract_references` returns
exactly one `Reference` record per markdown-link match whose path contains
`guides` and ends with `.md`, in source (left-to-right) order, with
`name` and `path` from the match, `type = infer_guide_type path`, and
`apiUrl = api/guides/{type}s/{basename of path with .md replaced by .json}`;
non-qualifying links contribute no record. -/
theorem c1_extract_references_exact (content : List Char) :
    extract_references content =
      ((findLinks content).filter (fun m => isGuideLink m.2)).map (fun m =>
        { name := m.1
          path := m.2
          type := infer_guide_type m.2
          apiUrl := "api/guides/".toList ++ infer_guide_type m.2 ++
            ('s' :: '/' :: pyReplace ".md".toList ".json".toList (basename m.2)) }) := by
  have h := foldl_append_if (fun m : List Char × List Char => isGuideLink m.2)
    (fun m => mkReference m.1 m.2) (findLinks content) []
  simpa [extract_references, mkReference, base_url] using h

/-- Claim C2, counterexample: a path containing both `shell` and `sql` need
not classify as `platform` — the `python` check fires first. -/
theorem c2_counterexample :
    strContains "shell".toList (pyLower "python-shell-sql.md".toList) = true ∧
    strContains "sql".toList (pyLower "python-shell-sql.md".toList) = true ∧
    infer_guide_type "python-shell-sql.md".toList ≠ "platform".toList := by
  refine ⟨by decide, by decide, by decide⟩

/-- Claim C2 (amended): `infer_guide_type` is total and equals the ordered
rule list evaluated first-match-first over the lower-cased path; in
particular, a path containing both `shell` and `sql` and neither `python` nor
`make` classifies as `platform`. -/
theorem c2_infer_type_order (p : List Char) :
    infer_guide_type p = firstMatch specTypeRules "other".toList (pyLower p) ∧
    (strContains "shell".toList (pyLower p) = true →
      strContains "sql".toList (pyLower p) = true →
      strContains "python".toList (pyLower p) = false →
      strContains "make".toList (pyLower p) = false →
      infer_guide_type p = "platform".toList) := by
  constructor
  · rfl
  · intro _ h2 h3 h4
    simp only [infer_guide_type]
    rw [h2, h3, h4]
    simp

/-- Claim C2, witness: `shell_sql.md` contains `shell` and `sql`, neither
`python` nor `make`, and classifies as `platform`. -/
theorem c2_witness :
    (strContains "shell".toList (pyLower "shell_sql.md".toList) = true ∧
      strContains "sql".toList (pyLower "shell_sql.md".toList) = true ∧
      strContains "python".toList (pyLower "shell_sql.md".toList) = false ∧
      strContains "make".toList (pyLower "shell_sql.md".toList) = false) ∧
    infer_guide_type "shell_sql.md".toList = "platform".toList :=
  ⟨⟨by decide, by decide, by decide, by decide⟩,
    (c2_infer_type_order "shell_sql.md".toList).2
      (by decide) (by decide) (by decide) (by decide)⟩


/-- Stripping a text with no `<!--` opener leaves it unchanged, for any
fuel. -/
theorem stripGo_no_open : ∀ (fuel : Nat) (s : List Char),
    strContains openTag s = false → stripGo fuel s = s := by
  intro fuel
  induction fuel with
  | zero => intro s _; cases s <;> rfl
  | succ n ih =>
    intro s h
    cases s with
    | nil => rfl
    | cons c rest =>
      have h' : openTag.isPrefixOf (c :: rest) = false ∧
          strContains openTag rest = false := by
        simpa [strContains, Bool.or_eq_false_iff] using h
      simp [stripGo, h'.1, ih rest h'.2]

/-- Claim C5, counterexample: comment-stripping is not idempotent — removing
`<!-- z -->` from `<!<!-- z -->-- y -->` leaves `<!-- y -->`, which a second
pass removes entirely. -/
theorem c5_counterexample :
    stripComments (stripComments "<!<!-- z -->-- y -->".toList) ≠
      stripComments "<!<!-- z -->-- y -->".toList := by
  decide

/-- Claim C5 (amended): stripping twice equals stripping once on every input
whose once-stripped result contains no `<!--` opener; in general a removal can
splice the surrounding text into a new comment that a second pass removes. -/
theorem c5_strip_conditional_idempotent (s : List Char)
    (h : strContains openTag (stripComments s) = false) :
    stripComments (stripComments s) = stripComments s :=
  stripGo_no_open _ _ h

/-- Claim C5, witness: on `a <!-- b --> c` the stripped output has no opener
and a second strip changes nothing. -/
theorem c5_witness :
    strContains openTag (stripComments "a <!-- b --> c".toList) = false ∧
    stripComments (stripComments "a <!-- b --> c".toList) =
      stripComments "a <!-- b --> c".toList :=
  ⟨by decide, c5_strip_conditional_idempotent _ (by decide)⟩

/-- `find` returns `-1` exactly when the text does not contain the pattern. -/
theorem findFrom_eq_none (m : List Char) :
    ∀ (s : List Char), findFrom m s = none ↔ strContains m s = false := by
  intro s
  induction s with
  | nil =>
    cases hm : m.isPrefixOf ([] : List Char) <;> simp [findFrom, strContains, hm]
  | cons c rest ih =>
    cases hp : m.isPrefixOf (c :: rest) <;> simp [findFrom, strContains, hp, ih]

/-- `findFrom` returns the suffix starting at an occurrence when no earlier
position is an occurrence. -/
theorem findFrom_first (m : List Char) :
    ∀ (pre post : List Char),
      (∀ i, i < pre.length → m.isPrefixOf ((pre ++ (m ++ post)).drop i) = false) →
      findFrom m (pre ++ (m ++ post)) = some (m ++ post) := by
  intro pre
  induction pre with
  | nil =>
    intro post _
    rcases hmp : m ++ post with _ | ⟨c, r⟩
    · rcases List.append_eq_nil.mp hmp with ⟨hm, hp⟩
      subst hm; subst hp
      rfl
    · have hpre : m.isPrefixOf (m ++ post) = true := by
        rw [List.isPrefixOf_iff_prefix]
        exact List.prefix_append m post
      rw [hmp] at hpre
      simp [findFrom, hpre, hmp]
  | cons a pre' ih =>
    intro post h
    have h0 := h 0 (by simp)
    simp only [List.drop_zero, List.cons_append] at h0
    have hrest : findFrom m (pre' ++ (m ++ post)) = some (m ++ post) := by
      refine ih post (fun i hi => ?_)
      have := h (i + 1) (by simpa using Nat.succ_lt_succ hi)
      simpa using this
    simp [findFrom, h0, hrest]

/-- Claim C6: when the comment-stripped root document does not contain the
marker `## The Golden Rules`, the run exits with code 1 and produces no output
files. -/
theorem c6_missing_marker_aborts (readme guidesDir : List Char)
    (guideFiles : List (List Char × Option (List Char)))
    (template : Option JVal) (wr : List Char → Bool)
    (h : strContains marker (stripComments readme) = false) :
    create_guide_json (some readme) guidesDir guideFiles template wr =
      { exitCode := 1, perGuideFiles := [], guideJson := none,
        indexHtml := false, manifest := none } := by
  have hn : findFrom marker (stripComments readme) = none :=
    (findFrom_eq_none marker (stripComments readme)).mpr h
  simp [create_guide_json, hn]

/-- Claim C6, witness: a root document without the marker aborts with exit
code 1 and no files. -/
theorem c6_witness :
    strContains marker (stripComments "# Title\nno marker here".toList) = false ∧
    create_guide_json (some "# Title\nno marker here".toList) "/d".toList []
        none (fun _ => true) =
      { exitCode := 1, perGuideFiles := [], guideJson := none,
        indexHtml := false, manifest := none } :=
  ⟨by decide, c6_missing_marker_aborts _ _ _ _ _ (by decide)⟩

/-- Every per-guide output path starts with `api/guides/` and so is not the
manifest path. -/
theorem api_path_ne_manifest (l : List Char) :
    ¬("api/guides/".toList ++ l = "manifest.json".toList) := by
  intro h
  have h' : List.head? ("api/guides/".toList ++ l) =
      List.head? "manifest.json".toList := congrArg List.head? h
  simp [String.toList] at h'

/-- Two write oracles agreeing away from `manifest.json` drive the per-guide
loop identically. -/
theorem processGuides_congr (wr wr' : List Char → Bool) (d : List Char)
    (h : ∀ p, ¬(p = "manifest.json".toList) → wr p = wr' p) :
    ∀ files, processGuides wr d files = processGuides wr' d files := by
  intro files
  induction files with
  | nil => rfl
  | cons f rest ih =>
    obtain ⟨filename, source⟩ := f
    simp only [processGuides]
    cases process_guide_markdown filename source with
    | none => exact ih
    | some gd =>
      have hw := h ("api/guides/".toList ++ infer_guide_type (d ++ ('/' :: filename)) ++
        ('s' :: '/' :: pyReplace ".md".toList ".json".toList filename))
        (by rw [List.append_assoc]; exact api_path_ne_manifest _)
      simp only [List.append_assoc] at hw ⊢
      rw [hw, ih]

/-- When every non-manifest write succeeds, the per-guide loop never
aborts. -/
theorem processGuides_ok (wr : List Char → Bool) (d : List Char)
    (h : ∀ p, ¬(p = "manifest.json".toList) → wr p = true) :
    ∀ files, (processGuides wr d files).2 = false := by
  intro files
  induction files with
  | nil => rfl
  | cons f rest ih =>
    obtain ⟨filename, source⟩ := f
    simp only [processGuides]
    cases process_guide_markdown filename source with
    | none => exact ih
    | some gd =>
      have hw := h ("api/guides/".toList ++ infer_guide_type (d ++ ('/' :: filename)) ++
        ('s' :: '/' :: pyReplace ".md".toList ".json".toList filename))
        (by rw [List.append_assoc]; exact api_path_ne_manifest _)
      simp only [List.append_assoc] at hw ⊢
      rw [hw]
      simpa using ih

/-- Claim C9: the start-of-guide marker is located by plain substring search
over the comment-stripped root text — the first occurrence wins, even
mid-line — and the emitted guide content (the `content` field of
`api/guide.json`, also the text references are extracted from) begins exactly
at that occurrence, marker included. -/
theorem c9_marker_first_occurrence (readme pre post guidesDir : List Char)
    (guideFiles : List (List Char × Option (List Char)))
    (template : Option JVal) (wr : List Char → Bool)
    (h : stripComments readme = pre ++ (marker ++ post))
    (hfirst : ∀ i, i < pre.length →
      marker.isPrefixOf ((pre ++ (marker ++ post)).drop i) = false)
    (hwr : ∀ p, ¬(p = "manifest.json".toList) → wr p = true) :
    (create_guide_json (some readme) guidesDir guideFiles template wr).guideJson =
      some (marker ++ post, extract_references (marker ++ post)) := by
  have hf : findFrom marker (stripComments readme) = some (marker ++ post) := by
    rw [h]
    exact findFrom_first marker pre post hfirst
  have hab : (processGuides wr guidesDir guideFiles).2 = false :=
    processGuides_ok wr guidesDir hwr guideFiles
  have hgj : wr "api/guide.json".toList = true := hwr _ (by decide)
  have hih : wr "index.html".toList = true := hwr _ (by decide)
  simp at hgj hih
  simp [create_guide_json, hf, hab, hgj, hih]

/-- Claim C9, witness: a marker occurring after an introduction is found and
the guide content starts exactly there. -/
theorem c9_witness :
    stripComments "intro\n## The Golden Rules\nsee [G](docs/guides/python.md)".toList =
      "intro\n".toList ++ (marker ++ "\nsee [G](docs/guides/python.md)".toList) ∧
    (create_guide_json
        (some "intro\n## The Golden Rules\nsee [G](docs/guides/python.md)".toList)
        "/d".toList [] none (fun _ => true)).guideJson =
      some (marker ++ "\nsee [G](docs/guides/python.md)".toList,
        extract_references (marker ++ "\nsee [G](docs/guides/python.md)".toList)) :=
  ⟨by decide,
    c9_marker_first_occurrence
      "intro\n## The Golden Rules\nsee [G](docs/guides/python.md)".toList
      "intro\n".toList "\nsee [G](docs/guides/python.md)".toList
      "/d".toList [] none (fun _ => true) (by decide) (by decide)
      (fun _ _ => rfl)⟩

/-- Claim C7: a failure anywhere in the manifest step — unreadable or
unparsable template, or a failed write of `manifest.json` — leaves the exit
code 0 and the per-guide files, `api/guide.json` and `index.html` outputs
unaffected (they do not depend on the template or on the manifest write at
all), while a failing write outside the manifest step (a per-guide file,
`api/guide.json` or `index.html`) aborts the run with exit code 1. -/
theorem c7_manifest_failure_isolated (readme g guidesDir : List Char)
    (guideFiles : List (List Char × Option (List Char)))
    (template : Option JVal) (wr : List Char → Bool)
    (hm : findFrom marker (stripComments readme) = some g) :
    ((∀ p, ¬(p = "manifest.json".toList) → wr p = true) →
      (create_guide_json (some readme) guidesDir guideFiles template wr).exitCode = 0 ∧
      (create_guide_json (some readme) guidesDir guideFiles template wr).indexHtml = true ∧
      (create_guide_json (some readme) guidesDir guideFiles template wr).guideJson =
        some (g, extract_references g) ∧
      ∀ (template' : Option JVal) (wr' : List Char → Bool),
        (∀ p, ¬(p = "manifest.json".toList) → wr' p = true) →
        (create_guide_json (some readme) guidesDir guideFiles template' wr').perGuideFiles =
          (create_guide_json (some readme) guidesDir guideFiles template wr).perGuideFiles ∧
        (create_guide_json (some readme) guidesDir guideFiles template' wr').guideJson =
          (create_guide_json (some readme) guidesDir guideFiles template wr).guideJson) ∧
    ((wr "api/guide.json".toList = false ∨ wr "index.html".toList = false ∨
        (processGuides wr guidesDir guideFiles).2 = true) →
      (create_guide_json (some readme) guidesDir guideFiles template wr).exitCode = 1) := by
  constructor
  · intro hwr
    have hab : (processGuides wr guidesDir guideFiles).2 = false :=
      processGuides_ok wr guidesDir hwr guideFiles
    have hgj : wr "api/guide.json".toList = true := hwr _ (by decide)
    have hih : wr "index.html".toList = true := hwr _ (by decide)
    simp at hgj hih
    refine ⟨?_, ?_, ?_, ?_⟩
    · simp [create_guide_json, hm, hab, hgj, hih]
    · simp [create_guide_json, hm, hab, hgj, hih]
    · simp [create_guide_json, hm, hab, hgj, hih]
    · intro template' wr' hwr'
      have hco : processGuides wr' guidesDir guideFiles =
          processGuides wr guidesDir guideFiles :=
        processGuides_congr wr' wr guidesDir
          (fun p hp => by rw [hwr p hp, hwr' p hp]) guideFiles
      have hab' : (processGuides wr' guidesDir guideFiles).2 = false := by
        rw [hco]; exact hab
      have hgj' : wr' "api/guide.json".toList = true := hwr' _ (by decide)
      have hih' : wr' "index.html".toList = true := hwr' _ (by decide)
      simp at hgj' hih'
      constructor
      · simp [create_guide_json, hm, hab, hgj, hih, hab', hgj', hih', hco]
      · simp [create_guide_json, hm, hab, hgj, hih, hab', hgj', hih', hco]
  · intro hfail
    cases hab : (processGuides wr guidesDir guideFiles).2 with
    | true => simp [create_guide_json, hm, hab]
    | false =>
      cases hgj : wr "api/guide.json".toList with
      | false =>
        have hgj' := hgj
        simp at hgj'
        simp [create_guide_json, hm, hab, hgj']
      | true =>
        cases hih : wr "index.html".toList with
        | false =>
          have hgj' := hgj
          have hih' := hih
          simp at hgj' hih'
          simp [create_guide_json, hm, hab, hgj', hih']
        | true =>
          rcases hfail with hf | hf | hf
          · rw [hgj] at hf; cases hf
          · rw [hih] at hf; cases hf
          · rw [hab] at hf; cases hf

/-- Claim C7, witness: with a missing template the run still exits 0 with all
other outputs written, and with a failing `api/guide.json` write it exits 1. -/
theorem c7_witness :
    findFrom marker (stripComments "## The Golden Rules\nbody".toList) =
      some "## The Golden Rules\nbody".toList ∧
    (create_guide_json (some "## The Golden Rules\nbody".toList) "/d".toList []
        none (fun _ => true)).exitCode = 0 ∧
    (create_guide_json (some "## The Golden Rules\nbody".toList) "/d".toList []
        none (fun _ => false)).exitCode = 1 :=
  ⟨by decide,
    ((c7_manifest_failure_isolated "## The Golden Rules\nbody".toList
      "## The Golden Rules\nbody".toList "/d".toList [] none (fun _ => true)
      (by decide)).1 (fun _ _ => rfl)).1,
    (c7_manifest_failure_isolated "## The Golden Rules\nbody".toList
      "## The Golden Rules\nbody".toList "/d".toList [] none (fun _ => false)
      (by decide)).2 (Or.inl rfl)⟩

/-- `infer_guide_type` always returns one of the four type names. -/
theorem infer_guide_type_cases (p : List Char) :
    infer_guide_type p = "language".toList ∨ infer_guide_type p = "pattern".toList ∨
    infer_guide_type p = "platform".toList ∨ infer_guide_type p = "other".toList := by
  simp only [infer_guide_type]
  split_ifs <;> simp

/-- Every file emitted by the per-guide loop has a path of the form
`api/guides/{type}s/{filename with .md replaced by .json}` with the type
inferred from the full file path. -/
theorem processGuides_mem (wr : List Char → Bool) (d : List Char) :
    ∀ (files : List (List Char × Option (List Char))) (gf : PerGuideOut),
      gf ∈ (processGuides wr d files).1 →
      ∃ filename, gf.type = infer_guide_type (d ++ ('/' :: filename)) ∧
        gf.relPath = "api/guides/".toList ++ gf.type ++
          ('s' :: '/' :: pyReplace ".md".toList ".json".toList filename) := by
  intro files
  induction files with
  | nil => intro gf h; cases h
  | cons f rest ih =>
    intro gf h
    obtain ⟨filename, source⟩ := f
    simp only [processGuides] at h
    split at h
    · exact ih gf h
    · split at h
      · rcases List.mem_cons.mp h with hh | ht
        · refine ⟨filename, ?_, ?_⟩
          · rw [hh]
          · rw [hh]
        · exact ih gf ht
      · cases h
  
/-- The per-guide files of any run all come from the per-guide loop. -/
theorem create_perGuideFiles_sub (readme : Option (List Char))
    (guidesDir : List Char) (guideFiles : List (List Char × Option (List Char)))
    (template : Option JVal) (wr : List Char → Bool) (gf : PerGuideOut)
    (h : gf ∈ (create_guide_json readme guidesDir guideFiles template wr).perGuideFiles) :
    gf ∈ (processGuides wr guidesDir guideFiles).1 := by
  cases readme with
  | none => cases h
  | some raw =>
    simp only [create_guide_json] at h
    split at h
    · cases h
    · split at h
      · exact h
      · split at h
        · exact h
        · split at h
          · exact h
          · exact h

/-- Claim C4, counterexample: a guide of type `other` is emitted under
`api/guides/others/`, not under `api/guides/other/` — the pluralisation
appends an `s` to every type name, including `other`. -/
theorem c4_counterexample :
    (create_guide_json (some "## The Golden Rules\nhello".toList)
        "/repo/docs/guides".toList
        [("misc.md".toList, some "# Misc\nstuff".toList)] none
        (fun _ => true)).perGuideFiles.map (fun f => (f.relPath, f.type)) =
      [("api/guides/others/misc.json".toList, "other".toList)] ∧
    strContains "api/guides/other/".toList "api/guides/others/misc.json".toList = false := by
  exact ⟨by decide, by decide⟩

/-- Claim C4 (amended): every per-guide JSON file is written at
`api/guides/{type}s/{basename with .md replaced by .json}` with the type one
of `language`, `pattern`, `platform`, `other` — so files land in
`languages`, `patterns`, `platforms` or `others` — while the pre-created
directory list is `languages`, `patterns`, `platforms`, `other`, whose last
entry never receives a file. -/
theorem c4_output_paths (readme : Option (List Char)) (guidesDir : List Char)
    (guideFiles : List (List Char × Option (List Char)))
    (template : Option JVal) (wr : List Char → Bool) (gf : PerGuideOut)
    (h : gf ∈ (create_guide_json readme guidesDir guideFiles template wr).perGuideFiles) :
    (∃ filename, gf.relPath = "api/guides/".toList ++ gf.type ++
        ('s' :: '/' :: pyReplace ".md".toList ".json".toList filename)) ∧
    (gf.type = "language".toList ∨ gf.type = "pattern".toList ∨
      gf.type = "platform".toList ∨ gf.type = "other".toList) ∧
    guide_types = ["languages".toList, "patterns".toList, "platforms".toList,
      "other".toList] ∧
    "others".toList ∉ guide_types := by
  obtain ⟨filename, htype, hpath⟩ := processGuides_mem wr guidesDir guideFiles gf
    (create_perGuideFiles_sub readme guidesDir guideFiles template wr gf h)
  refine ⟨⟨filename, hpath⟩, ?_, rfl, by decide⟩
  rw [htype]
  exact infer_guide_type_cases _

/-- Claim C4, witness: the `misc.md` guide of type `other` is emitted at
`api/guides/others/misc.json`, a path of the pluralised form. -/
theorem c4_witness :
    ({ relPath := "api/guides/others/misc.json".toList, name := "Misc".toList,
       type := "other".toList, content := "# Misc\nstuff".toList : PerGuideOut } ∈
      (create_guide_json (some "## The Golden Rules\nhello".toList)
        "/repo/docs/guides".toList
        [("misc.md".toList, some "# Misc\nstuff".toList)] none
        (fun _ => true)).perGuideFiles) ∧
    (∃ filename,
      ("api/guides/others/misc.json".toList : List Char) =
        "api/guides/".toList ++ "other".toList ++
          ('s' :: '/' :: pyReplace ".md".toList ".json".toList filename)) ∧
    "others".toList ∉ guide_types :=
  ⟨by decide,
    ((c4_output_paths (some "## The Golden Rules\nhello".toList)
      "/repo/docs/guides".toList
      [("misc.md".toList, some "# Misc\nstuff".toList)] none (fun _ => true)
      { relPath := "api/guides/others/misc.json".toList, name := "Misc".toList,
        type := "other".toList, content := "# Misc\nstuff".toList }
      (by decide)).1),
    by decide⟩

/-- Claim C10: `.md` is replaced everywhere in the basename, not only as a
trailing extension — a guide file `a.md.md` is emitted as `a.json.json` (also
in the `apiUrl` of a reference to it), and the title fallback strips every
`.md` occurrence, titling the guide `a`. -/
theorem c10_replace_all_md :
    (create_guide_json (some "## The Golden Rules\n[n](docs/guides/a.md.md)".toList)
        "/r/docs/guides".toList [("a.md.md".toList, some "body".toList)] none
        (fun _ => true)).perGuideFiles.map (fun f => (f.relPath, f.name)) =
      [("api/guides/others/a.json.json".toList, "a".toList)] ∧
    (extract_references "[n](docs/guides/a.md.md)".toList).map
        (fun r => r.apiUrl) =
      ["api/guides/others/a.json.json".toList] ∧
    process_guide_markdown "a.md.md".toList (some "body".toList) =
      some { title := "a".toList, content := "body".toList } := by
  exact ⟨by decide, by decide, by decide⟩

/-- Membership in the first-occurrence list is membership in the list. -/
theorem mem_firstOcc {α : Type} [BEq α] [LawfulBEq α] (a : α) :
    ∀ (l : List α), a ∈ firstOcc l ↔ a ∈ l := by
  intro l
  induction l with
  | nil => simp [firstOcc]
  | cons b rest ih =>
    by_cases hab : a = b
    · subst hab; simp [firstOcc]
    · simp only [firstOcc, List.mem_cons, List.mem_filter, Bool.not_eq_true',
        beq_eq_false_iff_ne, ih]
      simp [hab]

/-- The first-occurrence list has no duplicates. -/
theorem firstOcc_nodup {α : Type} [BEq α] [LawfulBEq α] :
    ∀ (l : List α), (firstOcc l).Nodup := by
  intro l
  induction l with
  | nil => simp [firstOcc]
  | cons b rest ih =>
    simp only [firstOcc, List.nodup_cons]
    refine ⟨?_, ih.filter _⟩
    intro hmem
    rw [List.mem_filter] at hmem
    simp at hmem

/-- Appending one element extends the first-occurrence list exactly when the
element is new. -/
theorem firstOcc_append_singleton {α : Type} [BEq α] [LawfulBEq α] (a : α) :
    ∀ (l : List α), firstOcc (l ++ [a]) =
      if a ∈ l then firstOcc l else firstOcc l ++ [a] := by
  intro l
  induction l with
  | nil => simp [firstOcc]
  | cons b rest ih =>
    simp only [List.cons_append, firstOcc]
    by_cases hmem : a ∈ rest
    · simp [hmem, ih]
    · by_cases hab : a = b
      · subst hab
        simp [hmem, ih, List.filter_append]
      · simp [hmem, hab, ih, List.filter_append, beq_eq_false_iff_ne.mpr hab]

/-- Adding a guide of a new type appends a new group at the end. -/
theorem groupAdd_map_not_mem (F : List Char → List Guide) (g : Guide) :
    ∀ (ts : List (List Char)), g.type ∉ ts →
      groupAdd (ts.map (fun t => (t, F t))) g =
        ts.map (fun t => (t, F t)) ++ [(g.type, [g])] := by
  intro ts
  induction ts with
  | nil => intro _; rfl
  | cons t ts' ih =>
    intro h
    have ht : (t == g.type) = false :=
      beq_eq_false_iff_ne.mpr (fun e => h (by rw [e]; exact List.mem_cons_self _ _))
    simp only [List.map_cons, groupAdd, ht]
    simp [ih (fun hm => h (List.mem_cons_of_mem _ hm))]

/-- Adding a guide of an existing type appends it to that type's group. -/
theorem groupAdd_map_mem (F : List Char → List Guide) (g : Guide) :
    ∀ (ts : List (List Char)), ts.Nodup → g.type ∈ ts →
      groupAdd (ts.map (fun t => (t, F t))) g =
        ts.map (fun t => (t, if t == g.type then F t ++ [g] else F t)) := by
  intro ts
  induction ts with
  | nil => intro _ h; cases h
  | cons t ts' ih =>
    intro hnd hmem
    by_cases htg : t = g.type
    · subst htg
      rw [List.nodup_cons] at hnd
      have hmap : ts'.map (fun u => (u, if u == g.type then F u ++ [g] else F u)) =
          ts'.map (fun u => (u, F u)) := by
        refine List.map_congr_left (fun u hu => ?_)
        have hub : (u == g.type) = false :=
          beq_eq_false_iff_ne.mpr (fun e => hnd.1 (e ▸ hu))
        simp [hub]
      simp only [List.map_cons, groupAdd, beq_self_eq_true, if_true]
      rw [hmap]
    · have ht : (t == g.type) = false := beq_eq_false_iff_ne.mpr htg
      have hmem' : g.type ∈ ts' := by
        rcases List.mem_cons.mp hmem with h | h
        · exact absurd h.symm htg
        · exact h
      rw [List.nodup_cons] at hnd
      simp only [List.map_cons, groupAdd, ht]
      simp [ht, ih hnd.2 hmem']

/-- One `groupAdd` step preserves the `groupOf` description. -/
theorem groupAdd_groupOf (p : List Guide) (g : Guide) :
    groupAdd (groupOf p) g = groupOf (p ++ [g]) := by
  unfold groupOf
  by_cases hmem : g.type ∈ p.map Guide.type
  · rw [groupAdd_map_mem _ _ _ (firstOcc_nodup _) ((mem_firstOcc _ _).mpr hmem)]
    simp only [List.map_append, List.map_cons, List.map_nil]
    rw [firstOcc_append_singleton, if_pos hmem]
    have hf : ∀ t : List Char,
        (t, if t == g.type then p.filter (fun x => x.type == t) ++ [g]
            else p.filter (fun x => x.type == t)) =
        (t, (p ++ [g]).filter (fun x => x.type == t)) := by
      intro t
      rw [List.filter_append]
      by_cases hte : t = g.type
      · subst hte
        simp [List.filter]
      · have h1 : (t == g.type) = false := beq_eq_false_iff_ne.mpr hte
        have h2 : (g.type == t) = false :=
          beq_eq_false_iff_ne.mpr (fun e => hte e.symm)
        simp [List.filter, h1, h2]
    simp only [hf]
  · have hni : g.type ∉ firstOcc (p.map Guide.type) :=
      fun hmm => hmem ((mem_firstOcc _ _).mp hmm)
    rw [groupAdd_map_not_mem _ _ _ hni]
    simp only [List.map_append, List.map_cons, List.map_nil]
    rw [firstOcc_append_singleton, if_neg hmem]
    rw [List.map_append]
    congr 1
    · refine List.map_congr_left (fun t ht => ?_)
      have htne : (g.type == t) = false :=
        beq_eq_false_iff_ne.mpr (fun e => hmem (e ▸ (mem_firstOcc _ _).mp ht))
      rw [List.filter_append]
      simp [List.filter, htne]
    · have hnil : p.filter (fun x => x.type == g.type) = [] := by
        refine List.filter_eq_nil_iff.mpr (fun x hx => ?_)
        simp only [Bool.not_eq_true]
        exact beq_eq_false_iff_ne.mpr
          (fun e => hmem (e ▸ List.mem_map_of_mem Guide.type hx))
      simp [List.filter_append, List.filter, hnil]

/-- `guides_by_type` groups the guides by type in order of first appearance,
keeping each type's guides in processing order. -/
theorem guidesByType_eq (gs : List Guide) : guidesByType gs = groupOf gs := by
  have key : ∀ (l p : List Guide),
      List.foldl groupAdd (groupOf p) l = groupOf (p ++ l) := by
    intro l
    induction l with
    | nil => intro p; simp
    | cons g l ih =>
      intro p
      simp only [List.foldl_cons]
      rw [groupAdd_groupOf, ih (p ++ [g])]
      simp
  calc guidesByType gs = List.foldl groupAdd (groupOf []) gs := rfl
    _ = groupOf ([] ++ gs) := key gs []
    _ = groupOf gs := by simp

/-- Claim C3, counterexample: with guides processed in the order
language `a`, pattern `b`, language `c`, the appended manifest endpoints come
out grouped by type — `a`, `c`, `b` — not in processing order `a`, `b`, `c`. -/
theorem c3_counterexample :
    manifestEndpointNames (generate_mcp_manifest
        (some (JVal.obj [("endpoints".toList,
          JVal.arr [JVal.obj [("name".toList, JVal.str "main_guide".toList)]])]))
        true
        [ { name := "a".toList, type := "language".toList,
            path := "api/guides/languages/a.json".toList },
          { name := "b".toList, type := "pattern".toList,
            path := "api/guides/patterns/b.json".toList },
          { name := "c".toList, type := "language".toList,
            path := "api/guides/languages/c.json".toList } ]) =
      some ["main_guide".toList, "a".toList, "c".toList, "b".toList] ∧
    some ["main_guide".toList, "a".toList, "c".toList, "b".toList] ≠
      some ["main_guide".toList, "a".toList, "b".toList, "c".toList] := by
  exact ⟨by decide, by decide⟩

/-- Claim C3 (amended): the written manifest is the template with its
`endpoints` replaced by the retained `main_guide` endpoints (kept first and
untouched) followed by exactly one endpoint per generated guide
(name = output filename with `.json` removed, description =
`{Type} guide for {name}`, path = `/` + relative output path); the appended
endpoints are grouped by guide type — types in order of first appearance in
processing order, and within each type the guides in processing order — so a
template containing only `main_guide` plus two generated guides yields
exactly 3 endpoints. -/
theorem c3_manifest_endpoints (fields : List (List Char × JVal))
    (epList kept : List JVal) (guides : List Guide)
    (h1 : jLookup fields "endpoints".toList = some (JVal.arr epList))
    (h2 : keepMainGuide epList = some kept) :
    generate_mcp_manifest (some (JVal.obj fields)) true guides =
      some (JVal.obj (jSetKey fields "endpoints".toList
        (JVal.arr (kept ++ appendedEndpoints guides)))) ∧
    appendedEndpoints guides =
      ((firstOcc (guides.map Guide.type)).map
        (fun t => (guides.filter (fun g => g.type == t)).map mkEndpoint)).flatten := by
  constructor
  · have h1' := h1
    simp at h1'
    simp [generate_mcp_manifest, h1', h2]
  · rw [appendedEndpoints, guidesByType_eq, groupOf, List.map_map]
    rfl

/-- Claim C3, witness: a template with only `main_guide` and two generated
guides gives exactly three endpoints, `main_guide` first. -/
theorem c3_witness :
    generate_mcp_manifest
        (some (JVal.obj [("endpoints".toList,
          JVal.arr [JVal.obj [("name".toList, JVal.str "main_guide".toList)]])]))
        true
        [ { name := "Py".toList, type := "language".toList,
            path := "api/guides/languages/py.json".toList },
          { name := "Mk".toList, type := "pattern".toList,
            path := "api/guides/patterns/mk.json".toList } ] =
      some (JVal.obj (jSetKey
        [("endpoints".toList,
          JVal.arr [JVal.obj [("name".toList, JVal.str "main_guide".toList)]])]
        "endpoints".toList
        (JVal.arr ([JVal.obj [("name".toList, JVal.str "main_guide".toList)]] ++
          appendedEndpoints
            [ { name := "Py".toList, type := "language".toList,
                path := "api/guides/languages/py.json".toList },
              { name := "Mk".toList, type := "pattern".toList,
                path := "api/guides/patterns/mk.json".toList } ])))) ∧
    manifestEndpointNames (generate_mcp_manifest
        (some (JVal.obj [("endpoints".toList,
          JVal.arr [JVal.obj [("name".toList, JVal.str "main_guide".toList)]])]))
        true
        [ { name := "Py".toList, type := "language".toList,
            path := "api/guides/languages/py.json".toList },
          { name := "Mk".toList, type := "pattern".toList,
            path := "api/guides/patterns/mk.json".toList } ]) =
      some ["main_guide".toList, "py".toList, "mk".toList] := by
  have h := c3_manifest_endpoints
    [("endpoints".toList,
      JVal.arr [JVal.obj [("name".toList, JVal.str "main_guide".toList)]])]
    [JVal.obj [("name".toList, JVal.str "main_guide".toList)]]
    [JVal.obj [("name".toList, JVal.str "main_guide".toList)]]
    [ { name := "Py".toList, type := "language".toList,
        path := "api/guides/languages/py.json".toList },
      { name := "Mk".toList, type := "pattern".toList,
        path := "api/guides/patterns/mk.json".toList } ]
    (by rfl) (by rfl)
  refine ⟨h.1, ?_⟩
  rw [h.1]
  decide

/-- Lookup on a non-empty object inspects the head entry first. -/
theorem jLookup_cons (kv : List Char × JVal) (rest : List (List Char × JVal))
    (k : List Char) :
    jLookup (kv :: rest) k = if kv.1 == k then some kv.2 else jLookup rest k := by
  by_cases h : (kv.1 == k) = true <;> simp [jLookup, List.find?_cons, h]

/-- Updating one key of an object leaves lookups of every other key
unchanged. -/
theorem jLookup_jSetKey_ne (k k2 : List Char) (v : JVal) (hk : ¬(k = k2)) :
    ∀ (fields : List (List Char × JVal)),
      jLookup (jSetKey fields k2 v) k = jLookup fields k := by
  intro fields
  induction fields with
  | nil =>
    have h0 : (k2 == k) = false := beq_eq_false_iff_ne.mpr (fun e => hk e.symm)
    simp [jSetKey, jLookup, List.find?, h0]
  | cons kv rest ih =>
    by_cases h : (kv.1 == k2) = true
    · have hk1 : (kv.1 == k) = false := by
        refine beq_eq_false_iff_ne.mpr ?_
        rw [eq_of_beq h]
        exact fun e => hk e.symm
      simp [jSetKey, h, jLookup_cons, hk1]
    · have h' : (kv.1 == k2) = false := by simpa using h
      simp [jSetKey, h', jLookup_cons, ih]

/-- Claim C8: whenever the manifest step succeeds, every top-level key of the
parsed template other than `endpoints` is passed through to the written
manifest unchanged — only the `endpoints` field is replaced. -/
theorem c8_frame_preservation (fields : List (List Char × JVal))
    (guides : List Guide) (k : List Char)
    (hs : (generate_mcp_manifest (some (JVal.obj fields)) true guides).isSome = true)
    (hk : ¬(k = "endpoints".toList)) :
    jLookupOpt (generate_mcp_manifest (some (JVal.obj fields)) true guides) k =
      jLookup fields k := by
  cases he : jLookup fields "endpoints".toList with
  | none =>
    have he' := he
    simp at he'
    have hmain := jLookup_jSetKey_ne k "endpoints".toList
      (JVal.arr (appendedEndpoints guides)) hk fields
    simp at hmain
    simp [generate_mcp_manifest, he', keepMainGuide, jLookupOpt, hmain]
  | some v =>
    have he' := he
    simp at he'
    cases v with
    | arr l =>
      cases hkm : keepMainGuide l with
      | none => simp [generate_mcp_manifest, he', hkm] at hs
      | some kept =>
        have hmain := jLookup_jSetKey_ne k "endpoints".toList
          (JVal.arr (kept ++ appendedEndpoints guides)) hk fields
        simp at hmain
        simp [generate_mcp_manifest, he', hkm, jLookupOpt, hmain]
    | str s => simp [generate_mcp_manifest, he'] at hs
    | num n => simp [generate_mcp_manifest, he'] at hs
    | bool b => simp [generate_mcp_manifest, he'] at hs
    | null => simp [generate_mcp_manifest, he'] at hs
    | obj o => simp [generate_mcp_manifest, he'] at hs

/-- Claim C8, witness: a `name` and a `version` key of the template survive
manifest generation unchanged. -/
theorem c8_witness :
    (generate_mcp_manifest (some (JVal.obj
        [ ("name".toList, JVal.str "guide-api".toList),
          ("version".toList, JVal.str "0.1.0".toList),
          ("endpoints".toList,
            JVal.arr [JVal.obj [("name".toList, JVal.str "main_guide".toList)]]) ]))
        true []).isSome = true ∧
    ¬("version".toList = "endpoints".toList) ∧
    jLookupOpt (generate_mcp_manifest (some (JVal.obj
        [ ("name".toList, JVal.str "guide-api".toList),
          ("version".toList, JVal.str "0.1.0".toList),
          ("endpoints".toList,
            JVal.arr [JVal.obj [("name".toList, JVal.str "main_guide".toList)]]) ]))
        true []) "version".toList =
      jLookup
        [ ("name".toList, JVal.str "guide-api".toList),
          ("version".toList, JVal.str "0.1.0".toList),
          ("endpoints".toList,
            JVal.arr [JVal.obj [("name".toList, JVal.str "main_guide".toList)]]) ]
        "version".toList :=
  ⟨by rfl, by decide,
    c8_frame_preservation
      [ ("name".toList, JVal.str "guide-api".toList),
        ("version".toList, JVal.str "0.1.0".toList),
        ("endpoints".toList,
          JVal.arr [JVal.obj [("name".toList, JVal.str "main_guide".toList)]]) ]
      [] "version".toList (by rfl) (by decide)⟩
